import Mathlib

/-!
Verification of the tsbean-driver-mysql core (src/driver.ts): the SQL
statement builder, the result-normalization logic, and the row-stream
controller.  Pure statement assembly is embedded as Lean functions on a
JavaScript-like scalar type; the streaming controller is embedded as an
explicit event-step machine.  The filter compiler (src/filtering.ts) and
the value-conversion utilities (src/utils.ts) are not part of the
available sources and are modelled from the specification where needed.
-/

/-- JavaScript-like scalar values handled by the driver. -/
inductive JSValue where
  | null
  | undefined
  | num (n : Int)
  | str (s : String)
  | boolean (b : Bool)
deriving DecidableEq, Repr

/-- A row object: an ordered mapping from field names to scalar values
(JS object key-iteration order). -/
abbrev GenericRow := List (String × JSValue)

/-- JS property lookup `row[k]`: the value of the (unique) key `k`,
`undefined` when the key is absent. -/
def jsLookup (row : GenericRow) (k : String) : JSValue :=
  match row.find? (fun p => p.1 == k) with
  | some p => p.2
  | none => JSValue.undefined

/-- The test `v === null || v === undefined` from `driver.ts`. -/
def jsUnset (v : JSValue) : Bool :=
  v == JSValue.null || v == JSValue.undefined

/-- Backtick quotation of an SQL identifier, as written inline throughout
`driver.ts`. -/
def quoteId (s : String) : String :=
  "`" ++ s ++ "`"

/-- The `NameConversion` policy object of `driver.ts` (`idConversion`). -/
structure NameConversion where
  toSQL : String → String
  toBean : String → String
  parseResults : List GenericRow → List GenericRow

/-- The compiled condition `{ query, values }` produced by the filter
compiler. -/
structure CompiledCondition where
  query : String
  values : List JSValue
deriving Repr

/-- Comparison operators of leaf filter nodes. -/
inductive CmpOp where
  | eq
  | ne
  | lt
  | le
  | gt
  | ge
  | like
deriving DecidableEq, Repr

/-- Modelled from the spec: the generic filter tree of section 3 — leaf
comparisons, null-checks, set-membership, and logical AND/OR/NOT nodes
(src/filtering.ts is not among the available sources). -/
inductive FilterNode where
  | cmp (field : String) (op : CmpOp) (operand : JSValue)
  | isNull (field : String) (negated : Bool)
  | inSet (field : String) (negated : Bool) (operands : List JSValue)
  | and (children : List FilterNode)
  | or (children : List FilterNode)
  | not (child : FilterNode)
deriving Repr

/-- A generic filter: `none` is the empty filter (no restriction). -/
abbrev GenericFilter := Option FilterNode

/-- SQL token of a comparison operator. -/
def opToken : CmpOp → String
  | CmpOp.eq => "="
  | CmpOp.ne => "<>"
  | CmpOp.lt => "<"
  | CmpOp.le => "<="
  | CmpOp.gt => ">"
  | CmpOp.ge => ">="
  | CmpOp.like => "LIKE"

/-- Whether a node is a logical node (its query gets parenthesized when it
appears as a child of AND/OR). -/
def isLogical : FilterNode → Bool
  | FilterNode.and _ => true
  | FilterNode.or _ => true
  | FilterNode.not _ => true
  | _ => false

/-- Join compiled children with a logical connective, parenthesizing the
logical ones, concatenating value lists left to right. -/
def joinChildren (sep : String) (children : List (Bool × CompiledCondition)) : CompiledCondition :=
  { query := String.intercalate sep
      (children.map (fun c => if c.1 then "(" ++ c.2.query ++ ")" else c.2.query)),
    values := children.flatMap (fun c => c.2.values) }

mutual

/-- Modelled from the spec: recursive descent compilation of a filter node
(section 4.2); operand values always become `?` placeholders, field names
pass through the identifier conversion, the empty set-membership compiles
to an always-false condition with no placeholder. -/
def compileNode (conv : String → String) : FilterNode → CompiledCondition
  | FilterNode.cmp f op v =>
      { query := quoteId (conv f) ++ " " ++ opToken op ++ " ?", values := [v] }
  | FilterNode.isNull f negated =>
      { query := quoteId (conv f) ++ (if negated then " IS NOT NULL" else " IS NULL"),
        values := [] }
  | FilterNode.inSet f negated ops =>
      if ops.isEmpty then
        { query := "FALSE", values := [] }
      else
        { query := quoteId (conv f) ++ (if negated then " NOT IN (" else " IN (")
            ++ String.intercalate ", " (ops.map (fun _ => "?")) ++ ")",
          values := ops }
  | FilterNode.and cs => joinChildren " AND " (compileChildren conv cs)
  | FilterNode.or cs => joinChildren " OR " (compileChildren conv cs)
  | FilterNode.not c =>
      let r := compileNode conv c
      { query := "NOT (" ++ r.query ++ ")", values := r.values }

/-- Compile a list of child nodes, remembering which are logical. -/
def compileChildren (conv : String → String) : List FilterNode → List (Bool × CompiledCondition)
  | [] => []
  | c :: rest => (isLogical c, compileNode conv c) :: compileChildren conv rest

end

/-- Modelled from the spec: `filterToSQL` — the empty filter compiles to an
empty query string and an empty value list; a present filter is compiled by
recursive descent (src/filtering.ts is not among the available sources). -/
def filterToSQL (filter : GenericFilter) (conv : String → String) : CompiledCondition :=
  match filter with
  | none => { query := "", values := [] }
  | some node => compileNode conv node

/-- Modelled from the spec: `toSQLCompatibleValue` of src/utils.ts is not
among the available sources; the spec treats operand values as plain
scalars threaded unchanged into the positional value list, so on this
model's scalar type it is the identity. -/
def toSQLCompatibleValue (v : JSValue) : JSValue := v

/-- A compiled statement: SQL text plus positional values. -/
structure SqlAndValues where
  sql : String
  values : List JSValue
deriving Repr

/-- The extra find options recognized by the driver (index hint). -/
structure ExtraFindOptions where
  useIndex : Option String
deriving Repr

/-- Projection fragment of `generateSelectSentence`: `*` when no projection
set is supplied, otherwise the converted quoted field names comma-joined in
caller order. -/
def projectionPart (conv : NameConversion) (projection : Option (List String)) : String :=
  match projection with
  | some fields => String.intercalate ", " (fields.map (fun f => quoteId (conv.toSQL f)))
  | none => "*"

/-- Index-hint fragment: emitted only when `extraOptions && extraOptions.useIndex`
is truthy (an empty hint string is falsy in JS). -/
def indexPart (extraOptions : Option ExtraFindOptions) : String :=
  match extraOptions with
  | some o =>
    match o.useIndex with
    | some ix => if ix = "" then "" else " FORCE INDEX (" ++ quoteId ix ++ ")"
    | none => ""
  | none => ""

/-- WHERE fragment: appended only when the compiled condition's query is
non-empty (`cond1.query.length > 0` in `driver.ts`). -/
def wherePart (cond : CompiledCondition) : String :=
  if cond.query.length > 0 then " WHERE " ++ cond.query else ""

/-- Values contributed by the WHERE fragment. -/
def whereValues (cond : CompiledCondition) : List JSValue :=
  if cond.query.length > 0 then cond.values else []

/-- ORDER BY fragment: emitted only when `sortBy` is truthy; descending
exactly when `sortDir === "desc"`. -/
def orderPart (conv : NameConversion) (sortBy : Option String) (sortDir : Option String) : String :=
  match sortBy with
  | some sb =>
      if sb = "" then ""
      else " ORDER BY " ++ quoteId (conv.toSQL sb) ++ " "
        ++ (if sortDir = some "desc" then "DESC" else "ASC")
  | none => ""

/-- LIMIT fragment: `limit !== null && limit >= 0` in `driver.ts`. -/
def limitClause : Option Int → String
  | some l => if 0 ≤ l then " LIMIT " ++ toString l else ""
  | none => ""

/-- OFFSET fragment: `skip !== null && skip >= 0` in `driver.ts`. -/
def offsetClause : Option Int → String
  | some s => if 0 ≤ s then " OFFSET " ++ toString s else ""
  | none => ""

/-- The SELECT sentence up to (and excluding) the LIMIT/OFFSET fragments. -/
def selectSentenceBase (conv : NameConversion) (table : String) (filter : GenericFilter)
    (sortBy sortDir : Option String) (projection : Option (List String))
    (extraOptions : Option ExtraFindOptions) : String :=
  "SELECT " ++ projectionPart conv projection ++ " FROM " ++ quoteId table
    ++ indexPart extraOptions
    ++ wherePart (filterToSQL filter conv.toSQL)
    ++ orderPart conv sortBy sortDir

/-- `generateSelectSentence` of `driver.ts`, shared by `find`, `findStream`
and `findStreamSync`. -/
def generateSelectSentence (conv : NameConversion) (table : String) (filter : GenericFilter)
    (sortBy sortDir : Option String) (skip limit : Option Int)
    (projection : Option (List String)) (extraOptions : Option ExtraFindOptions) : SqlAndValues :=
  { sql := selectSentenceBase conv table filter sortBy sortDir projection extraOptions
      ++ limitClause limit ++ offsetClause skip,
    values := whereValues (filterToSQL filter conv.toSQL) }

/-- The statement assembled by `findByKey`. -/
def findByKeyStatement (conv : NameConversion) (table keyName : String)
    (keyValue : JSValue) : SqlAndValues :=
  { sql := "SELECT * FROM " ++ quoteId table ++ " WHERE " ++ quoteId (conv.toSQL keyName) ++ " = ?",
    values := [keyValue] }

/-- The statement assembled by `count`. -/
def countStatement (conv : NameConversion) (table : String) (filter : GenericFilter)
    (extraOptions : Option ExtraFindOptions) : SqlAndValues :=
  { sql := "SELECT COUNT(*) AS " ++ quoteId "count" ++ " FROM " ++ quoteId table
      ++ indexPart extraOptions ++ wherePart (filterToSQL filter conv.toSQL),
    values := whereValues (filterToSQL filter conv.toSQL) }

/-- The statement assembled by `deleteMany`. -/
def deleteManyStatement (conv : NameConversion) (table : String) (filter : GenericFilter) : SqlAndValues :=
  { sql := "DELETE FROM " ++ quoteId table ++ wherePart (filterToSQL filter conv.toSQL),
    values := whereValues (filterToSQL filter conv.toSQL) }

/-- The statement assembled by `sum`. -/
def sumStatement (conv : NameConversion) (table : String) (filter : GenericFilter)
    (field : String) : SqlAndValues :=
  { sql := "SELECT SUM(" ++ quoteId (conv.toSQL field) ++ ") AS " ++ quoteId (conv.toSQL field)
      ++ " FROM " ++ quoteId table ++ wherePart (filterToSQL filter conv.toSQL),
    values := whereValues (filterToSQL filter conv.toSQL) }

/-- The plan assembled by `insert`: statement text, positional values, the
column and placeholder lists, and whether a generated key is requested. -/
structure InsertPlan where
  sql : String
  values : List JSValue
  insertReturns : Bool
  sqlKeys : List String
  qm : List String
deriving Repr

/-- `insert` of `driver.ts`: iterate the row's keys, skipping the designated
primary key when its value is null/undefined; request a generated key
(`RETURNING`) exactly when the key name is truthy and its value is
null/undefined. -/
def insertPlan (conv : NameConversion) (table : String) (row : GenericRow)
    (key : Option String) : InsertPlan :=
  let kept := row.filter (fun p => !(key == some p.1 && jsUnset (jsLookup row p.1)))
  let sqlKeys := kept.map (fun p => quoteId (conv.toSQL p.1))
  let values := kept.map (fun p => toSQLCompatibleValue (jsLookup row p.1))
  let qm := kept.map (fun _ => "?")
  let autoKey :=
    match key with
    | some k => !(k == "") && jsUnset (jsLookup row k)
    | none => false
  let base := "INSERT INTO " ++ quoteId table ++ "(" ++ String.intercalate "," sqlKeys
      ++ ") VALUES (" ++ String.intercalate "," qm ++ ")"
  let sql :=
    match key with
    | some k => if autoKey then base ++ " RETURNING " ++ quoteId (conv.toSQL k) else base
    | none => base
  { sql := sql, values := values, insertReturns := autoKey, sqlKeys := sqlKeys, qm := qm }

/-- The generated-key callback invocations performed by `insert`'s query
callback, as the list of values the callback is called with: one call with
`results[0][toSQL(key)]` when a generated key was requested and the result
set is non-empty, none otherwise. -/
def insertCallbackCalls (conv : NameConversion) (key : Option String) (plan : InsertPlan)
    (results : Option (List GenericRow)) : List JSValue :=
  if plan.insertReturns then
    match results with
    | some rs =>
        if rs.length > 0 then
          [jsLookup (rs.headD []) (match key with | some k => conv.toSQL k | none => "")]
        else []
    | none => []
  else []

/-- The multi-row statement of `batchInsert`: nested positional values. -/
structure BatchInsertPlan where
  sql : String
  values : List (List JSValue)
deriving Repr

/-- `batchInsert` of `driver.ts`: `none` models the early `return` on an
empty row list (the function returns without issuing any statement);
otherwise the single multi-row statement keyed on the first row's keys. -/
def batchInsertAction (conv : NameConversion) (table : String)
    (rows : List GenericRow) : Option BatchInsertPlan :=
  if rows.isEmpty then none
  else
    let firstRow := rows.headD []
    let keys := firstRow.map Prod.fst
    let sqlKeys := keys.map (fun k => quoteId (conv.toSQL k))
    some
      { sql := "INSERT INTO " ++ quoteId table ++ "(" ++ String.intercalate "," sqlKeys
          ++ ") VALUES ?",
        values := rows.map (fun row => keys.map (fun k => toSQLCompatibleValue (jsLookup row k))) }

/-- SET-list fragment shared by `update` and `updateMany`. -/
def setClause (conv : NameConversion) (updated : GenericRow) : String :=
  String.intercalate ", " (updated.map (fun p => quoteId (conv.toSQL p.1) ++ " = ?"))

/-- Values contributed by the SET list. -/
def setValues (updated : GenericRow) : List JSValue :=
  updated.map (fun p => toSQLCompatibleValue p.2)

/-- `update` of `driver.ts`: `none` models the early `return` on an empty
update payload (no statement is issued). -/
def updateAction (conv : NameConversion) (table keyName : String) (keyValue : JSValue)
    (updated : GenericRow) : Option SqlAndValues :=
  if updated.isEmpty then none
  else
    some
      { sql := "UPDATE " ++ quoteId table ++ " SET " ++ setClause conv updated
          ++ " WHERE " ++ quoteId (conv.toSQL keyName) ++ " = ?",
        values := setValues updated ++ [keyValue] }

/-- `updateMany` of `driver.ts`: `none` models the early `return` on an
empty update payload; otherwise the bulk UPDATE whose WHERE clause is
appended only for a non-empty compiled condition. -/
def updateManyAction (conv : NameConversion) (table : String) (filter : GenericFilter)
    (updated : GenericRow) : Option SqlAndValues :=
  if updated.isEmpty then none
  else
    some
      { sql := "UPDATE " ++ quoteId table ++ " SET " ++ setClause conv updated
          ++ wherePart (filterToSQL filter conv.toSQL),
        values := setValues updated ++ whereValues (filterToSQL filter conv.toSQL) }

/-- JS `String(v)` coercion as applied by `parseInt` to its argument. -/
def jsToString : JSValue → String
  | JSValue.null => "null"
  | JSValue.undefined => "undefined"
  | JSValue.num n => toString n
  | JSValue.str s => s
  | JSValue.boolean b => if b then "true" else "false"

/-- Longest digit run at the head of a character list. -/
def leadingDigits : List Char → List Char
  | [] => []
  | c :: rest => if c.isDigit then c :: leadingDigits rest else []

/-- Decimal value of a digit list. -/
def digitsToNat (ds : List Char) : Nat :=
  ds.foldl (fun acc c => acc * 10 + (c.toNat - 48)) 0

/-- JS `parseInt(s, 10)`: skip leading whitespace, read an optional sign,
then the longest digit run; `none` models the `NaN` result when no digit
follows. -/
def jsParseInt10 (s : String) : Option Int :=
  let cs := s.data.dropWhile (fun c => c == ' ' || c == '\t' || c == '\n' || c == '\r')
  let sign : Int :=
    match cs with
    | c :: _ => if c == '-' then -1 else 1
    | [] => 1
  let cs2 : List Char :=
    match cs with
    | c :: rest => if c == '-' || c == '+' then rest else cs
    | [] => cs
  let ds := leadingDigits cs2
  if ds.isEmpty then none else some (sign * (digitsToNat ds : Int))

/-- JS `x || 0` on the result of `parseInt`: `NaN` (here `none`) and `0`
both yield `0`, any other number is returned unchanged. -/
def jsOrZero : Option Int → Int
  | none => 0
  | some n => if n = 0 then 0 else n

/-- The result normalization of `sum`'s query callback: `0` for an empty
normalized result set, otherwise `parseInt(normalized[0][field], 10) || 0`. -/
def sumResolve (conv : NameConversion) (field : String) (results : List GenericRow) : Int :=
  let normalized := conv.parseResults results
  if normalized.length > 0 then
    jsOrZero (jsParseInt10 (jsToString (jsLookup (normalized.headD []) field)))
  else 0

/-- Events delivered to the streaming controller: a row from the source,
completion of the in-flight row handler's promise, natural end of source,
and a source-level error. -/
inductive StreamEvent (R E : Type) where
  | row (r : R)
  | complete
  | endOfSource
  | sourceError (e : E)

/-- State of the streaming controller of `findStream` / `findStreamSync`:
whether the source is paused (`stream.pause()`), destroyed
(`stream.destroy()`), has emitted `end`; the in-flight handler promise
(`busyPromise`) together with its eventual outcome; whether the `end`
listener is awaiting `busyPromise`; the settlement of the returned promise
(`none` pending, `some none` resolved, `some (some e)` rejected with `e`);
the rows the handler was invoked on, in invocation order; and the
source errors written to the debug sink. -/
structure StreamState (R E : Type) where
  paused : Bool
  destroyed : Bool
  ended : Bool
  busy : Option (Except E Unit)
  endWaiting : Bool
  settled : Option (Option E)
  invoked : List R
  log : List E
deriving Repr

/-- The initial controller state, before any stream event. -/
def initStreamState (R E : Type) : StreamState R E :=
  { paused := false, destroyed := false, ended := false, busy := none,
    endWaiting := false, settled := none, invoked := [], log := [] }

/-- Settle the returned promise: the first settlement wins, as for a JS
promise's `resolve`/`reject`. -/
def settleWith {R E : Type} (st : StreamState R E) (o : Option E) : StreamState R E :=
  if st.settled.isSome then st else { st with settled := some o }

/-- One event step of `findStream`'s listeners (async row handler).
`row`: a paused, destroyed or ended source emits no data; otherwise the
`data` listener pauses the source, invokes the handler and records its
pending outcome.  `complete`: the awaited `busyPromise` settles — the
`data` listener's continuation runs first (on failure `stream.destroy()`
then `reject`), then clears `busyPromise` and resumes; if the `end`
listener was awaiting the same promise its continuation then rejects or
resolves.  `endOfSource`: the `end` listener awaits a live `busyPromise`
or resolves at once.  `sourceError`: the `error` listener only writes to
the debug sink. -/
def stepAsync {R E : Type} (handle : R → Except E Unit) (st : StreamState R E) :
    StreamEvent R E → StreamState R E
  | StreamEvent.row r =>
      if st.destroyed || st.paused || st.ended then st
      else { st with paused := true, invoked := st.invoked ++ [r], busy := some (handle r) }
  | StreamEvent.complete =>
      match st.busy with
      | none => st
      | some o =>
          let st1 :=
            match o with
            | Except.error e => settleWith { st with destroyed := true } (some e)
            | Except.ok _ => st
          let st2 := { st1 with busy := none, paused := false }
          if st.endWaiting then
            match o with
            | Except.error e => settleWith st2 (some e)
            | Except.ok _ => settleWith st2 none
          else st2
  | StreamEvent.endOfSource =>
      if st.destroyed || st.ended then st
      else
        let st1 := { st with ended := true }
        match st.busy with
        | some _ => { st1 with endWaiting := true }
        | none => settleWith st1 none
  | StreamEvent.sourceError e => { st with log := st.log ++ [e] }

/-- One event step of `findStreamSync`'s listeners (sync row handler).
`row`: the `data` listener calls the handler synchronously; an exception
destroys the source and rejects.  `endOfSource`: resolve.  `sourceError`:
only the debug sink. -/
def stepSync {R E : Type} (handle : R → Except E Unit) (st : StreamState R E) :
    StreamEvent R E → StreamState R E
  | StreamEvent.row r =>
      if st.destroyed || st.ended then st
      else
        let st1 := { st with invoked := st.invoked ++ [r] }
        match handle r with
        | Except.ok _ => st1
        | Except.error e => settleWith { st1 with destroyed := true } (some e)
  | StreamEvent.complete => st
  | StreamEvent.endOfSource =>
      if st.destroyed || st.ended then st
      else settleWith { st with ended := true } none
  | StreamEvent.sourceError e => { st with log := st.log ++ [e] }

/-- Run the async controller over an event trace from a given state. -/
def runFromAsync {R E : Type} (handle : R → Except E Unit) (st : StreamState R E)
    (tr : List (StreamEvent R E)) : StreamState R E :=
  tr.foldl (stepAsync handle) st

/-- Run the async controller over an event trace from the initial state. -/
def runAsync {R E : Type} (handle : R → Except E Unit)
    (tr : List (StreamEvent R E)) : StreamState R E :=
  runFromAsync handle (initStreamState R E) tr

/-- Run the sync controller over an event trace from a given state. -/
def runFromSync {R E : Type} (handle : R → Except E Unit) (st : StreamState R E)
    (tr : List (StreamEvent R E)) : StreamState R E :=
  tr.foldl (stepSync handle) st

/-- Run the sync controller over an event trace from the initial state. -/
def runSync {R E : Type} (handle : R → Except E Unit)
    (tr : List (StreamEvent R E)) : StreamState R E :=
  runFromSync handle (initStreamState R E) tr

/-- Well-formed event traces for the async controller: the source emits a
row only while live, unpaused and not ended; a completion only while a
handler is in flight; `end` only once while live. -/
def wfAsync {R E : Type} (handle : R → Except E Unit) :
    StreamState R E → List (StreamEvent R E) → Bool
  | _, [] => true
  | st, ev :: rest =>
      (match ev with
       | StreamEvent.row _ => !st.destroyed && !st.paused && !st.ended
       | StreamEvent.complete => st.busy.isSome
       | StreamEvent.endOfSource => !st.destroyed && !st.ended
       | StreamEvent.sourceError _ => true)
      && wfAsync handle (stepAsync handle st ev) rest

/-- Well-formed event traces for the sync controller. -/
def wfSync {R E : Type} (handle : R → Except E Unit) :
    StreamState R E → List (StreamEvent R E) → Bool
  | _, [] => true
  | st, ev :: rest =>
      (match ev with
       | StreamEvent.row _ => !st.destroyed && !st.ended
       | StreamEvent.endOfSource => !st.destroyed && !st.ended
       | _ => true)
      && wfSync handle (stepSync handle st ev) rest

/-- The rows carried by the row events of a trace, in source order. -/
def traceRows {R E : Type} : List (StreamEvent R E) → List R
  | [] => []
  | StreamEvent.row r :: rest => r :: traceRows rest
  | _ :: rest => traceRows rest

/-- The pause discipline: whenever a handler is in flight, the source is
paused. -/
def BusyImpPaused {R E : Type} (st : StreamState R E) : Prop :=
  st.busy.isSome = true → st.paused = true

/-- Whether a string contains a decimal digit character. -/
def hasDigit (s : String) : Bool :=
  s.data.any Char.isDigit

mutual

/-- Replace every operand value of a filter tree, leaving its shape, its
field names and its operators unchanged. -/
def mapOperands (f : JSValue → JSValue) : FilterNode → FilterNode
  | FilterNode.cmp fld op v => FilterNode.cmp fld op (f v)
  | FilterNode.isNull fld n => FilterNode.isNull fld n
  | FilterNode.inSet fld n ops => FilterNode.inSet fld n (ops.map f)
  | FilterNode.and cs => FilterNode.and (mapOperandsList f cs)
  | FilterNode.or cs => FilterNode.or (mapOperandsList f cs)
  | FilterNode.not c => FilterNode.not (mapOperands f c)

/-- `mapOperands` over a child list. -/
def mapOperandsList (f : JSValue → JSValue) : List FilterNode → List FilterNode
  | [] => []
  | c :: rest => mapOperands f c :: mapOperandsList f rest

end

/-- The identity conversion policy (`disableIdentifierConversion`). -/
def idConv : NameConversion :=
  { toSQL := fun n => n, toBean := fun n => n, parseResults := fun rs => rs }

/-- A custom conversion policy that adds a marker to every identifier,
used to observe which identifier positions pass through `toSQL`. -/
def prefConv : NameConversion :=
  { toSQL := fun n => "c_" ++ n, toBean := fun n => n, parseResults := fun rs => rs }

/-- A row handler that succeeds on every row. -/
def okHandle : Nat → Except String Unit := fun _ => Except.ok ()

/-- A row handler that fails on row `2`. -/
def failHandle : Nat → Except String Unit :=
  fun n => if n = 2 then Except.error "boom" else Except.ok ()

/-- A five-event trace: two rows with their handler completions, then the
natural end of the source. -/
def okTrace : List (StreamEvent Nat String) :=
  [StreamEvent.row 1, StreamEvent.complete, StreamEvent.row 2, StreamEvent.complete,
   StreamEvent.endOfSource]

@[simp]
theorem settleWith_paused {R E : Type} (st : StreamState R E) (o : Option E) :
    (settleWith st o).paused = st.paused := by
  unfold settleWith; split <;> rfl

@[simp]
theorem settleWith_destroyed {R E : Type} (st : StreamState R E) (o : Option E) :
    (settleWith st o).destroyed = st.destroyed := by
  unfold settleWith; split <;> rfl

@[simp]
theorem settleWith_ended {R E : Type} (st : StreamState R E) (o : Option E) :
    (settleWith st o).ended = st.ended := by
  unfold settleWith; split <;> rfl

@[simp]
theorem settleWith_busy {R E : Type} (st : StreamState R E) (o : Option E) :
    (settleWith st o).busy = st.busy := by
  unfold settleWith; split <;> rfl

@[simp]
theorem settleWith_endWaiting {R E : Type} (st : StreamState R E) (o : Option E) :
    (settleWith st o).endWaiting = st.endWaiting := by
  unfold settleWith; split <;> rfl

@[simp]
theorem settleWith_invoked {R E : Type} (st : StreamState R E) (o : Option E) :
    (settleWith st o).invoked = st.invoked := by
  unfold settleWith; split <;> rfl

@[simp]
theorem settleWith_log {R E : Type} (st : StreamState R E) (o : Option E) :
    (settleWith st o).log = st.log := by
  unfold settleWith; split <;> rfl

theorem settleWith_settled_of_some {R E : Type} (st : StreamState R E) (o x : Option E)
    (h : st.settled = some x) : (settleWith st o).settled = some x := by
  unfold settleWith
  split
  · exact h
  · rename_i hs
    rw [h] at hs
    simp at hs

theorem settleWith_settled_of_none {R E : Type} (st : StreamState R E) (o : Option E)
    (h : st.settled = none) : (settleWith st o).settled = some o := by
  unfold settleWith
  split
  · rename_i hs
    rw [h] at hs
    simp at hs
  · rfl

theorem stepAsync_complete_invoked {R E : Type} (handle : R → Except E Unit)
    (st : StreamState R E) :
    (stepAsync handle st StreamEvent.complete).invoked = st.invoked := by
  unfold stepAsync
  cases hb : st.busy with
  | none => rfl
  | some o => cases o <;> cases hw : st.endWaiting <;> simp

theorem stepAsync_endOfSource_invoked {R E : Type} (handle : R → Except E Unit)
    (st : StreamState R E) :
    (stepAsync handle st StreamEvent.endOfSource).invoked = st.invoked := by
  unfold stepAsync
  by_cases hg : (st.destroyed || st.ended) = true
  · simp [hg]
  · simp only [Bool.not_eq_true] at hg
    cases hb : st.busy <;> simp [hg, hb]

theorem stepAsync_sourceError_invoked {R E : Type} (handle : R → Except E Unit)
    (st : StreamState R E) (e : E) :
    (stepAsync handle st (StreamEvent.sourceError e)).invoked = st.invoked := by
  rfl

theorem stepAsync_endOfSource_busy {R E : Type} (handle : R → Except E Unit)
    (st : StreamState R E) :
    (stepAsync handle st StreamEvent.endOfSource).busy = st.busy := by
  unfold stepAsync
  by_cases hg : (st.destroyed || st.ended) = true
  · simp [hg]
  · cases hb : st.busy <;> simp [hg, hb]

theorem stepAsync_endOfSource_paused {R E : Type} (handle : R → Except E Unit)
    (st : StreamState R E) :
    (stepAsync handle st StreamEvent.endOfSource).paused = st.paused := by
  unfold stepAsync
  by_cases hg : (st.destroyed || st.ended) = true
  · simp [hg]
  · cases hb : st.busy <;> simp [hg, hb]

theorem stepAsync_busyImpPaused {R E : Type} (handle : R → Except E Unit)
    (st : StreamState R E) (ev : StreamEvent R E) (h : BusyImpPaused st) :
    BusyImpPaused (stepAsync handle st ev) := by
  cases ev with
  | row r =>
    unfold stepAsync
    by_cases hg : (st.destroyed || st.paused || st.ended) = true
    · simp [hg]; exact h
    · simp [hg]; intro _; rfl
  | complete =>
    unfold stepAsync
    cases hb : st.busy with
    | none => exact h
    | some o =>
      cases o <;> cases hw : st.endWaiting <;> intro hbusy <;> simp_all [BusyImpPaused]
  | endOfSource =>
    intro hbusy
    rw [stepAsync_endOfSource_paused]
    rw [stepAsync_endOfSource_busy] at hbusy
    exact h hbusy
  | sourceError e =>
    intro hbusy
    exact h hbusy

theorem stepAsync_destroyed_absorb {R E : Type} (handle : R → Except E Unit)
    (st : StreamState R E) (ev : StreamEvent R E) (h : st.destroyed = true) :
    (stepAsync handle st ev).destroyed = true ∧
    (stepAsync handle st ev).invoked = st.invoked := by
  cases ev with
  | row r => unfold stepAsync; simp [h]
  | complete =>
    refine ⟨?_, stepAsync_complete_invoked handle st⟩
    unfold stepAsync
    cases hb : st.busy with
    | none => exact h
    | some o => cases o <;> cases hw : st.endWaiting <;> simp [h]
  | endOfSource => unfold stepAsync; simp [h]
  | sourceError e => exact ⟨h, rfl⟩

theorem stepAsync_settled_absorb {R E : Type} (handle : R → Except E Unit)
    (st : StreamState R E) (ev : StreamEvent R E) (x : Option E)
    (h : st.settled = some x) :
    (stepAsync handle st ev).settled = some x := by
  cases ev with
  | row r =>
    unfold stepAsync
    by_cases hg : (st.destroyed || st.paused || st.ended) = true <;> simp [hg, h]
  | complete =>
    unfold stepAsync
    cases hb : st.busy with
    | none => exact h
    | some o =>
      cases o <;> cases hw : st.endWaiting <;>
        simp [settleWith_settled_of_some _ _ _ h, settleWith, h]
  | endOfSource =>
    unfold stepAsync
    by_cases hg : (st.destroyed || st.ended) = true
    · simp [hg, h]
    · simp only [Bool.not_eq_true] at hg
      cases hb : st.busy <;> simp [hg, hb, settleWith, h]
  | sourceError e => exact h

theorem runFromAsync_busyImpPaused {R E : Type} (handle : R → Except E Unit) :
    ∀ (tr : List (StreamEvent R E)) (st : StreamState R E),
      BusyImpPaused st → BusyImpPaused (runFromAsync handle st tr)
  | [], _, h => h
  | ev :: rest, st, h =>
      runFromAsync_busyImpPaused handle rest (stepAsync handle st ev)
        (stepAsync_busyImpPaused handle st ev h)

theorem runFromAsync_destroyed_absorb {R E : Type} (handle : R → Except E Unit) :
    ∀ (tr : List (StreamEvent R E)) (st : StreamState R E), st.destroyed = true →
      (runFromAsync handle st tr).destroyed = true ∧
      (runFromAsync handle st tr).invoked = st.invoked
  | [], _, h => ⟨h, rfl⟩
  | ev :: rest, st, h =>
      have hstep := stepAsync_destroyed_absorb handle st ev h
      have ih := runFromAsync_destroyed_absorb handle rest (stepAsync handle st ev) hstep.1
      ⟨ih.1, ih.2.trans hstep.2⟩

theorem runFromAsync_settled_absorb {R E : Type} (handle : R → Except E Unit) :
    ∀ (tr : List (StreamEvent R E)) (st : StreamState R E) (x : Option E),
      st.settled = some x → (runFromAsync handle st tr).settled = some x
  | [], _, _, h => h
  | ev :: rest, st, x, h =>
      runFromAsync_settled_absorb handle rest (stepAsync handle st ev) x
        (stepAsync_settled_absorb handle st ev x h)

theorem runFromAsync_invoked_of_wf {R E : Type} (handle : R → Except E Unit) :
    ∀ (tr : List (StreamEvent R E)) (st : StreamState R E),
      wfAsync handle st tr = true →
      (runFromAsync handle st tr).invoked = st.invoked ++ traceRows tr := by
  intro tr
  induction tr with
  | nil => intro st _; simp [runFromAsync, traceRows]
  | cons ev rest ih =>
    intro st h
    simp only [wfAsync, Bool.and_eq_true] at h
    obtain ⟨h1, h2⟩ := h
    have hrest := ih (stepAsync handle st ev) h2
    show (runFromAsync handle (stepAsync handle st ev) rest).invoked = _
    rw [hrest]
    cases ev with
    | row r =>
      simp only [Bool.and_eq_true, Bool.not_eq_true'] at h1
      obtain ⟨⟨hd, hp⟩, he⟩ := h1
      simp [stepAsync, hd, hp, he, traceRows]
    | complete => simp [stepAsync_complete_invoked, traceRows]
    | endOfSource => simp [stepAsync_endOfSource_invoked, traceRows]
    | sourceError e => simp [stepAsync_sourceError_invoked, traceRows]

theorem stepSync_destroyed_absorb {R E : Type} (handle : R → Except E Unit)
    (st : StreamState R E) (ev : StreamEvent R E) (h : st.destroyed = true) :
    (stepSync handle st ev).destroyed = true ∧
    (stepSync handle st ev).invoked = st.invoked := by
  cases ev with
  | row r => unfold stepSync; simp [h]
  | complete => exact ⟨h, rfl⟩
  | endOfSource => unfold stepSync; simp [h]
  | sourceError e => exact ⟨h, rfl⟩

theorem runFromSync_destroyed_absorb {R E : Type} (handle : R → Except E Unit) :
    ∀ (tr : List (StreamEvent R E)) (st : StreamState R E), st.destroyed = true →
      (runFromSync handle st tr).destroyed = true ∧
      (runFromSync handle st tr).invoked = st.invoked
  | [], _, h => ⟨h, rfl⟩
  | ev :: rest, st, h =>
      have hstep := stepSync_destroyed_absorb handle st ev h
      have ih := runFromSync_destroyed_absorb handle rest (stepSync handle st ev) hstep.1
      ⟨ih.1, ih.2.trans hstep.2⟩

theorem runFromSync_invoked_of_wf {R E : Type} (handle : R → Except E Unit) :
    ∀ (tr : List (StreamEvent R E)) (st : StreamState R E),
      wfSync handle st tr = true →
      (runFromSync handle st tr).invoked = st.invoked ++ traceRows tr := by
  intro tr
  induction tr with
  | nil => intro st _; simp [runFromSync, traceRows]
  | cons ev rest ih =>
    intro st h
    simp only [wfSync, Bool.and_eq_true] at h
    obtain ⟨h1, h2⟩ := h
    have hrest := ih (stepSync handle st ev) h2
    show (runFromSync handle (stepSync handle st ev) rest).invoked = _
    rw [hrest]
    cases ev with
    | row r =>
      simp only [Bool.and_eq_true, Bool.not_eq_true'] at h1
      obtain ⟨hd, he⟩ := h1
      cases hh : handle r <;> simp [stepSync, hd, he, hh, traceRows]
    | complete => simp [stepSync, traceRows]
    | endOfSource =>
      unfold stepSync
      by_cases hg : (st.destroyed || st.ended) = true <;> simp [hg, traceRows]
    | sourceError e => simp [stepSync, traceRows]

theorem hasDigit_append (a b : String) : hasDigit (a ++ b) = (hasDigit a || hasDigit b) := by
  simp [hasDigit, String.data_append, List.any_append]

theorem digit_ne {c : Char} (d : Char) (hd : d.isDigit = false) (h : c.isDigit = true) :
    c ≠ d := by
  intro hc
  rw [hc] at h
  rw [h] at hd
  cases hd

theorem digit_not_ws {c : Char} (h : c.isDigit = true) :
    (c == ' ' || c == '\t' || c == '\n' || c == '\r') = false := by
  have h1 : c ≠ ' ' := digit_ne ' ' (by decide) h
  have h2 : c ≠ '\t' := digit_ne '\t' (by decide) h
  have h3 : c ≠ '\n' := digit_ne '\n' (by decide) h
  have h4 : c ≠ '\r' := digit_ne '\r' (by decide) h
  simp [h1, h2, h3, h4]

theorem leadingDigits_all_digits (ds r : List Char) (hds : ∀ c ∈ ds, c.isDigit = true)
    (hr : r = [] ∨ ∃ c cs, r = c :: cs ∧ c.isDigit = false) :
    leadingDigits (ds ++ r) = ds := by
  induction ds with
  | nil =>
    rcases hr with h | ⟨c, cs, hrr, hc⟩
    · simp [h, leadingDigits]
    · simp [hrr, leadingDigits, hc]
  | cons a t ih =>
    have ha := hds a (List.mem_cons_self a t)
    simp [leadingDigits, ha, ih (fun c hc => hds c (List.mem_cons_of_mem a hc))]

theorem jsParseInt10_digit_run (ds r : List Char) (hne : ds ≠ [])
    (hds : ∀ c ∈ ds, c.isDigit = true)
    (hr : r = [] ∨ ∃ c cs, r = c :: cs ∧ c.isDigit = false) :
    jsParseInt10 (String.mk (ds ++ r)) = some (digitsToNat ds : Int) := by
  obtain ⟨c0, ds', rfl⟩ := List.exists_cons_of_ne_nil hne
  have hc0 := hds c0 (List.mem_cons_self c0 ds')
  have hpred : (c0 == ' ' || c0 == '\t' || c0 == '\n' || c0 == '\r') = false := digit_not_ws hc0
  have hminus : (c0 == '-') = false := by
    simp only [beq_eq_false_iff_ne]
    exact digit_ne '-' (by decide) hc0
  have hplus : (c0 == '+') = false := by
    simp only [beq_eq_false_iff_ne]
    exact digit_ne '+' (by decide) hc0
  have hlead : leadingDigits ((c0 :: ds') ++ r) = c0 :: ds' :=
    leadingDigits_all_digits (c0 :: ds') r hds hr
  rw [List.cons_append] at hlead
  simp [jsParseInt10, List.dropWhile, hpred, hminus, hplus]
  constructor
  · rw [hlead]
    simp
  · rw [hlead]

theorem isLogical_mapOperands (f : JSValue → JSValue) (n : FilterNode) :
    isLogical (mapOperands f n) = isLogical n := by
  cases n <;> rfl

mutual

theorem compileNode_query_mapOperands (conv : String → String) (f : JSValue → JSValue) :
    ∀ n : FilterNode, (compileNode conv (mapOperands f n)).query = (compileNode conv n).query
  | FilterNode.cmp fld op v => rfl
  | FilterNode.isNull fld neg => rfl
  | FilterNode.inSet fld neg ops => by
      cases ops with
      | nil => rfl
      | cons a t =>
          simp [mapOperands, compileNode, List.map_map, Function.comp_def, List.map_const']
  | FilterNode.and cs => by
      have hcs := compileChildren_render_mapOperands conv f cs
      simp only [mapOperands, compileNode, joinChildren]
      rw [hcs]
  | FilterNode.or cs => by
      have hcs := compileChildren_render_mapOperands conv f cs
      simp only [mapOperands, compileNode, joinChildren]
      rw [hcs]
  | FilterNode.not c => by
      simp only [mapOperands, compileNode]
      rw [compileNode_query_mapOperands conv f c]

theorem compileChildren_render_mapOperands (conv : String → String) (f : JSValue → JSValue) :
    ∀ cs : List FilterNode,
      (compileChildren conv (mapOperandsList f cs)).map
          (fun c => if c.1 then "(" ++ c.2.query ++ ")" else c.2.query)
        = (compileChildren conv cs).map
          (fun c => if c.1 then "(" ++ c.2.query ++ ")" else c.2.query)
  | [] => rfl
  | c :: rest => by
      simp only [mapOperandsList, compileChildren, List.map]
      rw [isLogical_mapOperands f c, compileNode_query_mapOperands conv f c,
        compileChildren_render_mapOperands conv f rest]

end

theorem jsUnset_cases {v : JSValue} (h : jsUnset v = true) :
    v = JSValue.null ∨ v = JSValue.undefined := by
  cases v with
  | null => exact Or.inl rfl
  | undefined => exact Or.inr rfl
  | num n => simp [jsUnset] at h
  | str s => simp [jsUnset] at h
  | boolean b => simp [jsUnset] at h

theorem jsOrZero_some (n : Int) : jsOrZero (some n) = n := by
  by_cases h : n = 0 <;> simp [jsOrZero, h]

theorem jsParse_null : jsOrZero (jsParseInt10 (jsToString JSValue.null)) = 0 := by
  decide

theorem jsParse_undefined : jsOrZero (jsParseInt10 (jsToString JSValue.undefined)) = 0 := by
  decide

/-- C3: an empty filter compiles to an empty query string with an empty
value list, and every builder of a conditional statement — the shared
SELECT generation of find/findStream/findStreamSync, count, updateMany,
deleteMany — omits the WHERE clause entirely (no `WHERE 1=1`-style clause
is emitted), so e.g. `updateMany` with an empty filter affects every row
of the table. -/
theorem c3_empty_filter_omits_where (conv : NameConversion) (table : String)
    (sortBy sortDir : Option String) (skip limit : Option Int)
    (projection : Option (List String)) (extraOptions : Option ExtraFindOptions) :
    filterToSQL none conv.toSQL = { query := "", values := [] } ∧
    wherePart (filterToSQL none conv.toSQL) = "" ∧
    (generateSelectSentence conv table none sortBy sortDir skip limit projection extraOptions).sql
      = "SELECT " ++ projectionPart conv projection ++ " FROM " ++ quoteId table
        ++ indexPart extraOptions ++ orderPart conv sortBy sortDir
        ++ limitClause limit ++ offsetClause skip ∧
    (generateSelectSentence conv table none sortBy sortDir skip limit projection extraOptions).values
      = [] ∧
    (countStatement conv table none extraOptions).sql
      = "SELECT COUNT(*) AS " ++ quoteId "count" ++ " FROM " ++ quoteId table
        ++ indexPart extraOptions ∧
    (countStatement conv table none extraOptions).values = [] ∧
    (∀ updated : GenericRow, updated ≠ [] →
      updateManyAction conv table none updated
        = some { sql := "UPDATE " ++ quoteId table ++ " SET " ++ setClause conv updated,
                 values := setValues updated }) ∧
    (deleteManyStatement conv table none).sql = "DELETE FROM " ++ quoteId table ∧
    (deleteManyStatement conv table none).values = [] := by
  refine ⟨rfl, rfl, ?_, ?_, ?_, ?_, ?_, ?_, ?_⟩
  · simp [generateSelectSentence, selectSentenceBase, filterToSQL, wherePart, String.append_assoc]
  · simp [generateSelectSentence, filterToSQL, whereValues]
  · simp [countStatement, filterToSQL, wherePart]
  · simp [countStatement, filterToSQL, whereValues]
  · intro updated hne
    have hne' : updated.isEmpty = false := by
      simp [List.isEmpty_iff, hne]
    simp [updateManyAction, hne', filterToSQL, wherePart, whereValues]
  · simp [deleteManyStatement, filterToSQL, wherePart]
  · simp [deleteManyStatement, filterToSQL, whereValues]

/-- C3 witness: `updateMany` over the empty filter with payload
`{status: "x"}` issues an UPDATE with no WHERE clause. -/
theorem c3_witness :
    updateManyAction idConv "t" none [("status", JSValue.str "x")]
      = some { sql := "UPDATE " ++ quoteId "t" ++ " SET "
                 ++ setClause idConv [("status", JSValue.str "x")],
               values := setValues [("status", JSValue.str "x")] } :=
  (c3_empty_filter_omits_where idConv "t" none none none none none none).2.2.2.2.2.2.1
    [("status", JSValue.str "x")] (by simp)

/-- C5: `batchInsert` with an empty row list, and `update`/`updateMany`
with an empty update payload, return without issuing any statement to the
underlying client (`none` in this model, mirroring the early `return`),
so the operation completes immediately. -/
theorem c5_empty_inputs_are_noops (conv : NameConversion) (table keyName : String)
    (keyValue : JSValue) (filter : GenericFilter) :
    batchInsertAction conv table [] = none ∧
    updateAction conv table keyName keyValue [] = none ∧
    updateManyAction conv table filter [] = none :=
  ⟨rfl, rfl, rfl⟩

/-- C9: `sum` resolves to the number 0 whenever the normalized result set
is empty or the aggregated value is missing (`undefined`) or null; the
extraction is a total function into the integers, so no null, undefined
or error outcome is possible. -/
theorem c9_sum_empty_or_null_is_zero (conv : NameConversion) (field : String)
    (results : List GenericRow)
    (h : conv.parseResults results = [] ∨
      jsUnset (jsLookup ((conv.parseResults results).headD []) field) = true) :
    sumResolve conv field results = 0 := by
  rcases h with h | h
  · simp [sumResolve, h]
  · rcases jsUnset_cases h with hv | hv
    · simp only [sumResolve]
      rw [hv]
      simp [jsParse_null]
    · simp only [sumResolve]
      rw [hv]
      simp [jsParse_undefined]

/-- C9 witness: `sum` over an empty result set resolves to 0, and over a
NULL aggregate resolves to 0. -/
theorem c9_witness :
    sumResolve idConv "total" [] = 0 ∧
    sumResolve idConv "total" [[("total", JSValue.null)]] = 0 :=
  ⟨c9_sum_empty_or_null_is_zero idConv "total" [] (Or.inl rfl),
   c9_sum_empty_or_null_is_zero idConv "total" [[("total", JSValue.null)]] (Or.inr (by decide))⟩

/-- C10: a successful `sum` resolves to the integer obtained by JS base-10
`parseInt` applied to the aggregated value followed by `|| 0`: an
aggregate string starting with a digit run is truncated at the first
non-digit character (so a fractional aggregate like "12.5" yields 12),
and a parse yielding no number (NaN) falls back to 0. -/
theorem c10_sum_parseInt (conv : NameConversion) (field : String)
    (results : List GenericRow) (row : GenericRow) (rest : List GenericRow)
    (hres : conv.parseResults results = row :: rest) :
    sumResolve conv field results
      = jsOrZero (jsParseInt10 (jsToString (jsLookup row field))) ∧
    (∀ ds r : List Char, jsLookup row field = JSValue.str (String.mk (ds ++ r)) →
      ds ≠ [] → (∀ c ∈ ds, c.isDigit = true) →
      (r = [] ∨ ∃ c cs, r = c :: cs ∧ c.isDigit = false) →
      sumResolve conv field results = (digitsToNat ds : Int)) ∧
    (jsParseInt10 (jsToString (jsLookup row field)) = none →
      sumResolve conv field results = 0) := by
  have hmain : sumResolve conv field results
      = jsOrZero (jsParseInt10 (jsToString (jsLookup row field))) := by
    simp [sumResolve, hres]
  refine ⟨hmain, ?_, ?_⟩
  · intro ds r hv hne hds hr
    rw [hmain, hv]
    simp only [jsToString]
    rw [jsParseInt10_digit_run ds r hne hds hr, jsOrZero_some]
  · intro hnone
    rw [hmain, hnone]
    rfl

/-- C10 witness: a fractional aggregate "12.5" resolves to 12. -/
theorem c10_witness :
    sumResolve idConv "total" [[("total", JSValue.str "12.5")]] = 12 := by
  have h := (c10_sum_parseInt idConv "total" [[("total", JSValue.str "12.5")]]
      [("total", JSValue.str "12.5")] [] rfl).2.1
      ['1', '2'] ['.', '5'] rfl (by decide) (by decide)
      (Or.inr ⟨'.', ['5'], rfl, by decide⟩)
  rw [h]
  rfl

/-- C4: `insert` with the designated primary-key field present but
null/undefined omits that field from the column list and the placeholder
list, requests the generated key from the backend (`RETURNING`), and the
query callback invokes the caller-supplied callback exactly once with the
generated value on any successful non-empty result; with the key present
and set, the field is included in the column list, no generated-key
return is requested, and the callback is never invoked. -/
theorem c4_insert_generated_key (conv : NameConversion) (table : String)
    (row : GenericRow) (k : String) :
    (jsUnset (jsLookup row k) = true → k ≠ "" →
      (insertPlan conv table row (some k)).sqlKeys
          = (row.filter (fun p => !(p.1 == k))).map (fun p => quoteId (conv.toSQL p.1)) ∧
      (insertPlan conv table row (some k)).qm
          = (row.filter (fun p => !(p.1 == k))).map (fun _ => "?") ∧
      (insertPlan conv table row (some k)).insertReturns = true ∧
      (insertPlan conv table row (some k)).sql
          = "INSERT INTO " ++ quoteId table ++ "("
            ++ String.intercalate ","
                ((row.filter (fun p => !(p.1 == k))).map (fun p => quoteId (conv.toSQL p.1)))
            ++ ") VALUES ("
            ++ String.intercalate ","
                ((row.filter (fun p => !(p.1 == k))).map (fun _ => "?"))
            ++ ")" ++ " RETURNING " ++ quoteId (conv.toSQL k) ∧
      (∀ rs : List GenericRow, rs ≠ [] →
        insertCallbackCalls conv (some k) (insertPlan conv table row (some k)) (some rs)
          = [jsLookup (rs.headD []) (conv.toSQL k)])) ∧
    (jsUnset (jsLookup row k) = false →
      (insertPlan conv table row (some k)).sqlKeys
          = row.map (fun p => quoteId (conv.toSQL p.1)) ∧
      (insertPlan conv table row (some k)).insertReturns = false ∧
      (insertPlan conv table row (some k)).sql
          = "INSERT INTO " ++ quoteId table ++ "("
            ++ String.intercalate "," (row.map (fun p => quoteId (conv.toSQL p.1)))
            ++ ") VALUES ("
            ++ String.intercalate "," (row.map (fun _ => "?")) ++ ")" ∧
      (∀ results : Option (List GenericRow),
        insertCallbackCalls conv (some k) (insertPlan conv table row (some k)) results = [])) := by
  constructor
  · intro hU hk
    have hfil : row.filter (fun p => !(k == p.1) || !jsUnset (jsLookup row p.1))
        = row.filter (fun p => !(p.1 == k)) := by
      apply List.filter_congr
      intro p hp
      by_cases hpk : p.1 = k
      · rw [hpk]
        simp [hU]
      · have h1 : (k == p.1) = false := by
          simp only [beq_eq_false_iff_ne]
          exact Ne.symm hpk
        have h2 : (p.1 == k) = false := by
          simp only [beq_eq_false_iff_ne]
          exact hpk
        simp [h1, h2]
    have hko : (k == "") = false := by simp [hk]
    refine ⟨?_, ?_, ?_, ?_, ?_⟩
    · simp [insertPlan, hfil]
    · simp [insertPlan, hfil]
    · simp [insertPlan, hko, hU]
    · simp [insertPlan, hfil, hko, hU]
    · intro rs hrs
      have hlen : rs.length > 0 := List.length_pos.mpr hrs
      simp [insertCallbackCalls, insertPlan, hko, hU, hlen]
  · intro hU
    have hfil : row.filter (fun p => !(k == p.1) || !jsUnset (jsLookup row p.1))
        = row := by
      have hall : ∀ p ∈ row, (!(k == p.1) || !jsUnset (jsLookup row p.1)) = true := by
        intro p hp
        by_cases hpk : p.1 = k
        · rw [hpk]
          simp [hU]
        · simp [Ne.symm hpk]
      rw [List.filter_congr hall]
      exact List.filter_true row
    refine ⟨?_, ?_, ?_, ?_⟩
    · simp [insertPlan, hfil]
    · simp [insertPlan, hU]
    · simp [insertPlan, hfil, hU]
    · intro results
      simp [insertCallbackCalls, insertPlan, hU]

/-- C4 witness: with an unset key `id`, the column list omits `id`, a
generated key is requested and the callback receives the returned value
exactly once; with `id` set, no generated key is requested. -/
theorem c4_witness :
    (insertPlan idConv "person" [("id", JSValue.null), ("name", JSValue.str "a")]
        (some "id")).insertReturns = true ∧
    (insertPlan idConv "person" [("id", JSValue.null), ("name", JSValue.str "a")]
        (some "id")).sqlKeys = [quoteId "name"] ∧
    insertCallbackCalls idConv (some "id")
        (insertPlan idConv "person" [("id", JSValue.null), ("name", JSValue.str "a")] (some "id"))
        (some [[("id", JSValue.num 7)]]) = [JSValue.num 7] ∧
    (insertPlan idConv "person" [("id", JSValue.num 1), ("name", JSValue.str "a")]
        (some "id")).insertReturns = false := by
  have h1 := (c4_insert_generated_key idConv "person"
      [("id", JSValue.null), ("name", JSValue.str "a")] "id").1 (by decide) (by decide)
  have h2 := (c4_insert_generated_key idConv "person"
      [("id", JSValue.num 1), ("name", JSValue.str "a")] "id").2 (by decide)
  refine ⟨h1.2.2.1, ?_, ?_, h2.2.1⟩
  · rw [h1.1]
    rfl
  · have h3 := h1.2.2.2.2 [[("id", JSValue.num 7)]] (by simp)
    rw [h3]
    rfl

/-- C8: in the shared SELECT assembly of find/findStream/findStreamSync, a
negative or absent limit omits the LIMIT clause and a negative or absent
skip omits the OFFSET clause; the generated text decomposes into a base
carrying no digit characters (whenever the interpolated identifiers and
the compiled condition carry none) followed by the LIMIT/OFFSET fragments,
whose only literal numbers are the non-negative limit/skip counts. -/
theorem c8_limit_skip_clauses (conv : NameConversion) (table : String)
    (filter : GenericFilter) (sortBy sortDir : Option String)
    (projection : Option (List String)) (extraOptions : Option ExtraFindOptions) :
    (∀ skip limit : Option Int,
      (generateSelectSentence conv table filter sortBy sortDir skip limit projection
          extraOptions).sql
        = selectSentenceBase conv table filter sortBy sortDir projection extraOptions
          ++ limitClause limit ++ offsetClause skip) ∧
    (∀ limit : Option Int, (limit = none ∨ ∃ l, limit = some l ∧ l < 0) →
      limitClause limit = "") ∧
    (∀ skip : Option Int, (skip = none ∨ ∃ s, skip = some s ∧ s < 0) →
      offsetClause skip = "") ∧
    (∀ limit : Option Int, limitClause limit = ""
      ∨ ∃ l : Int, limit = some l ∧ 0 ≤ l ∧ limitClause limit = " LIMIT " ++ toString l) ∧
    (∀ skip : Option Int, offsetClause skip = ""
      ∨ ∃ s : Int, skip = some s ∧ 0 ≤ s ∧ offsetClause skip = " OFFSET " ++ toString s) ∧
    (hasDigit table = false → hasDigit (projectionPart conv projection) = false →
      hasDigit (indexPart extraOptions) = false →
      hasDigit (filterToSQL filter conv.toSQL).query = false →
      hasDigit (orderPart conv sortBy sortDir) = false →
      hasDigit (selectSentenceBase conv table filter sortBy sortDir projection extraOptions)
        = false) := by
  refine ⟨fun _ _ => rfl, ?_, ?_, ?_, ?_, ?_⟩
  · intro limit h
    rcases h with rfl | ⟨l, rfl, hl⟩
    · rfl
    · simp [limitClause, not_le.mpr hl]
  · intro skip h
    rcases h with rfl | ⟨s, rfl, hs⟩
    · rfl
    · simp [offsetClause, not_le.mpr hs]
  · intro limit
    cases limit with
    | none => exact Or.inl rfl
    | some l =>
      by_cases hl : 0 ≤ l
      · exact Or.inr ⟨l, rfl, hl, by simp [limitClause, hl]⟩
      · exact Or.inl (by simp [limitClause, hl])
  · intro skip
    cases skip with
    | none => exact Or.inl rfl
    | some s =>
      by_cases hs : 0 ≤ s
      · exact Or.inr ⟨s, rfl, hs, by simp [offsetClause, hs]⟩
      · exact Or.inl (by simp [offsetClause, hs])
  · intro h1 h2 h3 h4 h5
    have hw : hasDigit (wherePart (filterToSQL filter conv.toSQL)) = false := by
      unfold wherePart
      split
      · rw [hasDigit_append, h4]
        decide
      · decide
    simp only [selectSentenceBase, quoteId, hasDigit_append, h1, h2, h3, h5, hw, Bool.or_false]
    decide

/-- C8 witness: with an absent limit and a negative skip, the generated
SELECT carries neither LIMIT nor OFFSET, and the base text carries no
digit. -/
theorem c8_witness :
    (generateSelectSentence idConv "t" none none none (some (-1)) none none none).sql
      = "SELECT * FROM `t`" ∧
    hasDigit (selectSentenceBase idConv "t" none none none none none) = false := by
  have h := c8_limit_skip_clauses idConv "t" none none none none none
  constructor
  · have h1 := h.1 (some (-1)) none
    have h2 := h.2.1 none (Or.inl rfl)
    have h3 := h.2.2.1 (some (-1)) (Or.inr ⟨-1, rfl, by decide⟩)
    rw [h1, h2, h3]
    rfl
  · exact h.2.2.2.2.2 (by decide) (by decide) (by decide) (by decide) (by decide)

/-- C6 counterexample: with a converter that rewrites every identifier,
`findByKey` still interpolates the raw table name — the table is
backtick-quoted but NOT passed through the active converter's `toSQL`,
and likewise the index-hint name in the SELECT assembly — refuting the
claim that all identifier positions pass through the converter. -/
theorem c6_counterexample :
    (findByKeyStatement prefConv "myTable" "id" (JSValue.num 1)).sql
      = "SELECT * FROM `myTable` WHERE `c_id` = ?" ∧
    prefConv.toSQL "myTable" = "c_myTable" ∧
    (findByKeyStatement prefConv "myTable" "id" (JSValue.num 1)).sql
      ≠ "SELECT * FROM `c_myTable` WHERE `c_id` = ?" ∧
    (generateSelectSentence prefConv "t" none none none none none none
        (some { useIndex := some "myIdx" })).sql
      = "SELECT * FROM `t` FORCE INDEX (`myIdx`)" ∧
    prefConv.toSQL "myIdx" = "c_myIdx" := by
  refine ⟨rfl, rfl, ?_, rfl, rfl⟩
  decide

/-- C6 amended: all value-bearing positions are positional placeholders —
the SQL text is independent of the bound values (which appear only in the
value list), and the compiled condition's query text is invariant under
any replacement of the filter's operand values; column/field/key
identifier positions are backtick-quoted and passed through the active
converter's `toSQL`; table names and index-hint names, however, are
backtick-quoted but interpolated verbatim, bypassing the converter. -/
theorem c6_amended_placeholders_and_identifiers :
    (∀ (conv : NameConversion) (table k : String) (v v' : JSValue),
      (findByKeyStatement conv table k v).sql = (findByKeyStatement conv table k v').sql) ∧
    (∀ (conv : NameConversion) (table k : String) (v : JSValue),
      (findByKeyStatement conv table k v).values = [v]) ∧
    (∀ (conv : NameConversion) (table k : String) (v : JSValue),
      (findByKeyStatement conv table k v).sql
        = "SELECT * FROM " ++ quoteId table ++ " WHERE " ++ quoteId (conv.toSQL k) ++ " = ?") ∧
    (∀ (conv : String → String) (f : JSValue → JSValue) (filter : GenericFilter),
      (filterToSQL (filter.map (mapOperands f)) conv).query
        = (filterToSQL filter conv).query) ∧
    (∀ (conv conv' : NameConversion) (table : String) (extra : Option ExtraFindOptions),
      (generateSelectSentence conv table none none none none none none extra).sql
        = (generateSelectSentence conv' table none none none none none none extra).sql) := by
  refine ⟨fun _ _ _ _ _ => rfl, fun _ _ _ _ => rfl, fun _ _ _ _ => rfl, ?_, fun _ _ _ _ => rfl⟩
  intro conv f filter
  cases filter with
  | none => rfl
  | some node => exact compileNode_query_mapOperands conv f node

/-- C2 counterexample: at the concrete event trace consisting of a single
source-level error, both streaming controllers leave the returned promise
unsettled — the error is only written to the debug sink and is never
surfaced as the terminal outcome of the streaming operation. -/
theorem c2_counterexample :
    (runAsync okHandle [StreamEvent.sourceError "boom"]).settled = none ∧
    (runAsync okHandle [StreamEvent.sourceError "boom"]).settled ≠ some (some "boom") ∧
    (runAsync okHandle [StreamEvent.sourceError "boom"]).log = ["boom"] ∧
    (runSync okHandle [StreamEvent.sourceError "boom"]).settled = none ∧
    (runSync okHandle [StreamEvent.sourceError "boom"]).log = ["boom"] := by
  refine ⟨rfl, ?_, rfl, rfl, rfl⟩
  decide

/-- C2 amended: on a source-level error both streaming controllers only
append the error to the debug sink's log; the error listener changes no
other state component — in particular it neither resolves nor rejects the
returned promise, so the failure is not surfaced as the operation's
terminal outcome and no awaiting of an in-flight handler takes place. -/
theorem c2_amended_source_error_only_logged {R E : Type}
    (handle : R → Except E Unit) (st : StreamState R E) (e : E) :
    stepAsync handle st (StreamEvent.sourceError e) = { st with log := st.log ++ [e] } ∧
    stepSync handle st (StreamEvent.sourceError e) = { st with log := st.log ++ [e] } ∧
    (stepAsync handle st (StreamEvent.sourceError e)).settled = st.settled ∧
    (stepSync handle st (StreamEvent.sourceError e)).settled = st.settled :=
  ⟨rfl, rfl, rfl, rfl⟩

/-- C7: on natural end of source with a handler still in flight, the end
listener leaves the promise pending and awaits that handler: a late
handler failure settles the streaming operation with that failure even
though the source already ended, and a late success resolves it; end of
source with no handler in flight resolves immediately as success. -/
theorem c7_end_of_source_waits_for_handler (R E : Type) (handle : R → Except E Unit)
    (st : StreamState R E) :
    (∀ o, st.destroyed = false → st.ended = false → st.busy = some o → st.settled = none →
      (stepAsync handle st StreamEvent.endOfSource).settled = none ∧
      (stepAsync handle st StreamEvent.endOfSource).endWaiting = true ∧
      (∀ e, o = Except.error e →
        (stepAsync handle (stepAsync handle st StreamEvent.endOfSource)
            StreamEvent.complete).settled = some (some e)) ∧
      (o = Except.ok () →
        (stepAsync handle (stepAsync handle st StreamEvent.endOfSource)
            StreamEvent.complete).settled = some none)) ∧
    (st.destroyed = false → st.ended = false → st.busy = none → st.settled = none →
      (stepAsync handle st StreamEvent.endOfSource).settled = some none) := by
  constructor
  · intro o hd he hb hs
    have hstep : stepAsync handle st StreamEvent.endOfSource
        = { st with ended := true, endWaiting := true } := by
      unfold stepAsync
      simp [hd, he, hb]
    refine ⟨?_, ?_, ?_, ?_⟩
    · rw [hstep]
      exact hs
    · rw [hstep]
    · intro e hoe
      rw [hstep]
      unfold stepAsync
      simp [hb, hoe, settleWith, hs]
    · intro hok
      rw [hstep]
      unfold stepAsync
      simp [hb, hok, settleWith, hs]
  · intro hd he hb hs
    unfold stepAsync
    simp [hd, he, hb, settleWith, hs]

/-- C7 witness: with an in-flight successful handler, end of source leaves
the promise pending until the completion resolves it; with no handler in
flight, end of source resolves at once. -/
theorem c7_witness :
    (stepAsync okHandle
        (stepAsync okHandle
          { initStreamState Nat String with paused := true, busy := some (Except.ok ()) }
          StreamEvent.endOfSource)
        StreamEvent.complete).settled = some none ∧
    (stepAsync okHandle (initStreamState Nat String) StreamEvent.endOfSource).settled
      = some none := by
  constructor
  · exact ((c7_end_of_source_waits_for_handler Nat String okHandle
      { initStreamState Nat String with paused := true, busy := some (Except.ok ()) }).1
      (Except.ok ()) rfl rfl rfl rfl).2.2.2 rfl
  · exact (c7_end_of_source_waits_for_handler Nat String okHandle
      (initStreamState Nat String)).2 rfl rfl rfl rfl

/-- C1: in the async streaming controller, whenever a handler is in flight
the source is paused (so a row event delivers nothing — at most one
handler invocation is in flight and there is no overlap), and over any
well-formed event trace the handler is invoked exactly once per delivered
row in source order; the completion of a failing handler destroys the
source and rejects the operation with that failure, a destroyed source
delivers no further rows, and the first settlement is final; the sync
variant gives the same in-order exactly-once guarantee and a handler
exception likewise destroys the source and rejects the operation. -/
theorem c1_stream_order_and_failure (R E : Type) (handle : R → Except E Unit) :
    (∀ (st : StreamState R E) (tr : List (StreamEvent R E)),
      BusyImpPaused st → BusyImpPaused (runFromAsync handle st tr)) ∧
    (∀ (st : StreamState R E) (r : R), st.paused = true →
      stepAsync handle st (StreamEvent.row r) = st) ∧
    (∀ (st : StreamState R E) (tr : List (StreamEvent R E)),
      wfAsync handle st tr = true →
      (runFromAsync handle st tr).invoked = st.invoked ++ traceRows tr) ∧
    (∀ (st : StreamState R E) (e : E),
      st.busy = some (Except.error e) → st.settled = none →
      (stepAsync handle st StreamEvent.complete).destroyed = true ∧
      (stepAsync handle st StreamEvent.complete).settled = some (some e)) ∧
    (∀ (st : StreamState R E) (tr : List (StreamEvent R E)), st.destroyed = true →
      (runFromAsync handle st tr).invoked = st.invoked) ∧
    (∀ (st : StreamState R E) (tr : List (StreamEvent R E)) (x : Option E),
      st.settled = some x → (runFromAsync handle st tr).settled = some x) ∧
    (∀ (st : StreamState R E) (tr : List (StreamEvent R E)),
      wfSync handle st tr = true →
      (runFromSync handle st tr).invoked = st.invoked ++ traceRows tr) ∧
    (∀ (st : StreamState R E) (r : R) (e : E),
      st.destroyed = false → st.ended = false → handle r = Except.error e →
      st.settled = none →
      (stepSync handle st (StreamEvent.row r)).destroyed = true ∧
      (stepSync handle st (StreamEvent.row r)).settled = some (some e) ∧
      (stepSync handle st (StreamEvent.row r)).invoked = st.invoked ++ [r]) ∧
    (∀ (st : StreamState R E) (tr : List (StreamEvent R E)), st.destroyed = true →
      (runFromSync handle st tr).invoked = st.invoked) := by
  refine ⟨?_, ?_, ?_, ?_, ?_, ?_, ?_, ?_, ?_⟩
  · intro st tr h
    exact runFromAsync_busyImpPaused handle tr st h
  · intro st r hp
    unfold stepAsync
    simp [hp]
  · intro st tr h
    exact runFromAsync_invoked_of_wf handle tr st h
  · intro st e hb hs
    unfold stepAsync
    by_cases hw : st.endWaiting <;> simp [hb, hs, hw, settleWith]
  · intro st tr h
    exact (runFromAsync_destroyed_absorb handle tr st h).2
  · intro st tr x h
    exact runFromAsync_settled_absorb handle tr st x h
  · intro st tr h
    exact runFromSync_invoked_of_wf handle tr st h
  · intro st r e hd he hh hs
    unfold stepSync
    simp [hd, he, hh, hs, settleWith]
  · intro st tr h
    exact (runFromSync_destroyed_absorb handle tr st h).2

/-- C1 witness: over a concrete well-formed trace the async controller
invokes the handler on rows 1 and 2 in source order; a failing sync
handler on row 2 destroys the source and rejects with its error. -/
theorem c1_witness :
    (runFromAsync okHandle (initStreamState Nat String) okTrace).invoked = [1, 2] ∧
    (stepSync failHandle { initStreamState Nat String with invoked := [1] }
        (StreamEvent.row 2)).settled = some (some "boom") := by
  constructor
  · have h := (c1_stream_order_and_failure Nat String okHandle).2.2.1
      (initStreamState Nat String) okTrace (by decide)
    rw [h]
    decide
  · exact ((c1_stream_order_and_failure Nat String failHandle).2.2.2.2.2.2.2.1
      { initStreamState Nat String with invoked := [1] } 2 "boom" rfl rfl rfl rfl).2.1
